import Mathlib

/-!
Verification of the passport-extraction pipeline.

Shallow embedding of the core logic of the repository:
* the validator variants of `client/src/lib/validation.ts` (and the
  quality-score variant shipped alongside the contribution guide),
* the extraction clients of `api/openai.js` and `client/src/lib/openai.ts`,
* the batch handlers of `api/batch-process-images.js` and
  `api/process-passport-pdf.js`,
* the image normalizer `safeProcessImage` of `server/routes.ts`.

JavaScript numbers are modelled as exact rationals (`ℚ`) or integers,
`undefined`-able values as `Option`, objects with insertion-ordered keys as
association lists, and awaited external calls (the image codec, the PDF
reader, the inference service) as oracle functions supplied to the embedded
code.  `new Date(s)` is modelled on the ISO `YYYY-MM-DD` fragment that the
data contract prescribes, at day resolution; `new Date()` (the current
instant) is an explicit `now` parameter.
-/

/-- Calendar date, as produced by `new Date("YYYY-MM-DD")` (UTC midnight).
Day resolution: the time-of-day of `new Date()` is not modelled. -/
structure JsDate where
  year : Nat
  month : Nat
  day : Nat
deriving DecidableEq, Repr

/-- Numeric key that orders valid calendar dates chronologically
(for month ≤ 12 and day ≤ 31 the lexicographic order on (y, m, d)
coincides with the order of the underlying timestamps). -/
def JsDate.key (d : JsDate) : Nat :=
  d.year * 10000 + d.month * 100 + d.day

/-- Number of days of a month, with Gregorian leap years, as validated by
the ISO date parser of `Date.parse`. -/
def daysInMonth (y m : Nat) : Nat :=
  if m = 2 then
    if y % 4 = 0 ∧ (y % 100 ≠ 0 ∨ y % 400 = 0) then 29 else 28
  else if m = 4 ∨ m = 6 ∨ m = 9 ∨ m = 11 then 30
  else 31

/-- Parse the decimal digits of a character list (all characters assumed
checked to be digits). -/
def digitsToNat (cs : List Char) : Nat :=
  cs.foldl (fun acc c => acc * 10 + (c.toNat - '0'.toNat)) 0

/-- `new Date(s)` on the ISO `YYYY-MM-DD` fragment: `some` date when the
string is a well-formed calendar date, `none` (Invalid Date / `NaN`)
otherwise.  The engine-specific non-ISO fallback formats of `Date.parse`
are outside the data contract and modelled as invalid. -/
def parseIsoDate (s : String) : Option JsDate :=
  match s.toList with
  | [y1, y2, y3, y4, d1, m1, m2, d2, a1, a2] =>
    if y1.isDigit ∧ y2.isDigit ∧ y3.isDigit ∧ y4.isDigit ∧ d1 = '-' ∧
        m1.isDigit ∧ m2.isDigit ∧ d2 = '-' ∧ a1.isDigit ∧ a2.isDigit then
      let y := digitsToNat [y1, y2, y3, y4]
      let m := digitsToNat [m1, m2]
      let d := digitsToNat [a1, a2]
      if 1 ≤ m ∧ m ≤ 12 ∧ 1 ≤ d ∧ d ≤ daysInMonth y m then
        some ⟨y, m, d⟩
      else none
    else none
  | _ => none

/-- `new Date(value)` where `value : string | undefined`:
`new Date(undefined)` is Invalid Date. -/
def parseJsDate (value : Option String) : Option JsDate :=
  match value with
  | none => none
  | some s => parseIsoDate s

/-- `toUpperCase` on one character (ASCII case mapping, the fragment the
contract data uses). -/
def jsCharUpper (c : Char) : Char :=
  if 'a' ≤ c ∧ c ≤ 'z' then Char.ofNat (c.toNat - 32) else c

/-- `s.toUpperCase()`. -/
def jsToUpper (s : String) : String := String.mk (s.toList.map jsCharUpper)

/-- `s.trim()`: strip leading and trailing whitespace. -/
def jsTrim (s : String) : String :=
  String.mk
    (((s.toList.dropWhile Char.isWhitespace).reverse.dropWhile
      Char.isWhitespace).reverse)

/-- MRZ object: `{ line1, line2 }`, each possibly `undefined`. -/
structure Mrz where
  line1 : Option String
  line2 : Option String
deriving DecidableEq, Repr

/-- Input record handed to `validatePassportData` (the fields the
validators read; a JS `Record<string, any>` whose absent members are
`none`).  Confidence scores are an insertion-ordered map; a score that is
not a number is `none`. -/
structure PassportData where
  fullName : Option String := none
  dateOfBirth : Option String := none
  passportNumber : Option String := none
  nationality : Option String := none
  dateOfIssue : Option String := none
  dateOfExpiry : Option String := none
  placeOfBirth : Option String := none
  issuingAuthority : Option String := none
  mrz : Option Mrz := none
  confidence_scores : Option (List (String × Option ℚ)) := none
deriving DecidableEq, Repr

/-- The ISO 3166-1 alpha-3 reference set `COUNTRY_CODES` of
`client/src/lib/validation.ts`. -/
def COUNTRY_CODES : List String :=
  ["AFG", "ALB", "DZA", "ASM", "AND", "AGO", "AIA", "ATA", "ATG", "ARG",
   "ARM", "ABW", "AUS", "AUT", "AZE", "BHS", "BHR", "BGD", "BRB", "BLR",
   "BEL", "BLZ", "BEN", "BMU", "BTN", "BOL", "BES", "BIH", "BWA", "BVT",
   "BRA", "IOT", "BRN", "BGR", "BFA", "BDI", "CPV", "KHM", "CMR", "CAN",
   "CYM", "CAF", "TCD", "CHL", "CHN", "CXR", "CCK", "COL", "COM", "COG",
   "COD", "COK", "CRI", "CIV", "HRV", "CUB", "CUW", "CYP", "CZE", "DNK",
   "DJI", "DMA", "DOM", "ECU", "EGY", "SLV", "GNQ", "ERI", "EST", "SWZ",
   "ETH", "FLK", "FRO", "FJI", "FIN", "FRA", "GUF", "PYF", "ATF", "GAB",
   "GMB", "GEO", "DEU", "GHA", "GIB", "GRC", "GRL", "GRD", "GLP", "GUM",
   "GTM", "GGY", "GIN", "GNB", "GUY", "HTI", "HMD", "VAT", "HND", "HKG",
   "HUN", "ISL", "IND", "IDN", "IRN", "IRQ", "IRL", "IMN", "ISR", "ITA",
   "JAM", "JPN", "JEY", "JOR", "KAZ", "KEN", "KIR", "PRK", "KOR", "KWT",
   "KGZ", "LAO", "LVA", "LBN", "LSO", "LBR", "LBY", "LIE", "LTU", "LUX",
   "MAC", "MDG", "MWI", "MYS", "MDV", "MLI", "MLT", "MHL", "MTQ", "MRT",
   "MUS", "MYT", "MEX", "FSM", "MDA", "MCO", "MNG", "MNE", "MSR", "MAR",
   "MOZ", "MMR", "NAM", "NRU", "NPL", "NLD", "NCL", "NZL", "NIC", "NER",
   "NGA", "NIU", "NFK", "MKD", "MNP", "NOR", "OMN", "PAK", "PLW", "PSE",
   "PAN", "PNG", "PRY", "PER", "PHL", "PCN", "POL", "PRT", "PRI", "QAT",
   "REU", "ROU", "RUS", "RWA", "BLM", "SHN", "KNA", "LCA", "MAF", "SPM",
   "VCT", "WSM", "SMR", "STP", "SAU", "SEN", "SRB", "SYC", "SLE", "SGP",
   "SXM", "SVK", "SVN", "SLB", "SOM", "ZAF", "SGS", "SSD", "ESP", "LKA",
   "SDN", "SUR", "SJM", "SWE", "CHE", "SYR", "TWN", "TJK", "TZA", "THA",
   "TLS", "TGO", "TKL", "TON", "TTO", "TUN", "TUR", "TKM", "TCA", "TUV",
   "UGA", "UKR", "ARE", "GBR", "USA", "UMI", "URY", "UZB", "VUT", "VEN",
   "VNM", "VGB", "VIR", "WLF", "ESH", "YEM", "ZMB", "ZWE"]

namespace V1

/-!
The validator exported by `client/src/lib/validation.ts`
(`validatePassportData`, the `{ isValid, remarks, details }` variant).
Each call to the inner `addValidation(field, message)` is modelled as an
event `(field, message)`; `remarks` collects the events in call order as
`field ++ ": " ++ message`, `details` groups them per field in first-touch
order.
-/

/-- The result type `ValidationResult = { isValid, remarks, details }`. -/
structure ValidationResult where
  isValid : Bool
  remarks : List String
  details : List (String × List String)
deriving DecidableEq, Repr

/-- Keys of the object literal returned by `validatePassportData`
(`return { isValid, remarks, details }`). -/
def resultKeys : List String := ["isValid", "remarks", "details"]

/-- `details[field].push(message)` on the association map, creating the
field's list on first touch (JS object key insertion order). -/
def addDetail (ds : List (String × List String)) (field msg : String) :
    List (String × List String) :=
  if (ds.map Prod.fst).contains field then
    ds.map fun p => if p.1 = field then (p.1, p.2 ++ [msg]) else p
  else
    ds ++ [(field, [msg])]

/-- Character class of `/^[A-Z0-9<]+$/`. -/
def isPassportChar (c : Char) : Bool :=
  ('A' ≤ c ∧ c ≤ 'Z') ∨ c.isDigit ∨ c = '<'

/-- The passport-number checks (rule 1): missing, length outside 8–9,
characters outside `[A-Z0-9<]`. -/
def passportNumberEvents (passportNumber : Option String) :
    List (String × String) :=
  let pn := (passportNumber.map jsTrim).getD ""
  if pn = "" then
    [("passportNumber", "Missing passport number")]
  else
    (if pn.length < 8 ∨ pn.length > 9 then
      [("passportNumber",
        "Invalid length (" ++ toString pn.length ++ " characters)")]
    else []) ++
    (if ¬ (pn.toList ≠ [] ∧ pn.toList.all isPassportChar) then
      [("passportNumber", "Contains invalid characters")]
    else [])

/-- The inner `validateDate(field, value, options)` helper: returns the
parsed date (or `none` for Invalid Date) and the emitted events, in the
source's check order (minYear, maxYear, notFuture, notPast). -/
def validateDate (field : String) (value : Option String)
    (minYear maxYear : Option Nat) (notFuture notPast : Bool)
    (now : JsDate) : Option JsDate × List (String × String) :=
  match parseJsDate value with
  | none => (none, [(field, "Invalid date format")])
  | some d =>
    (some d,
      (match minYear with
       | some m => if d.year < m then
           [(field, "Year cannot be before " ++ toString m)] else []
       | none => []) ++
      (match maxYear with
       | some m => if d.year > m then
           [(field, "Year cannot be after " ++ toString m)] else []
       | none => []) ++
      (if notFuture ∧ now.key < d.key then
        [(field, "Cannot be in the future")] else []) ++
      (if notPast ∧ d.key < now.key then
        [(field, "Cannot be in the past")] else []))

/-- A confidence score fails `typeof score !== 'number' || score < 0 || score > 1`. -/
def badScore (sc : Option ℚ) : Bool :=
  match sc with
  | none => true
  | some q => q < 0 ∨ q > 1

/-- Generic field access `data[field]` for the required-field loop. -/
def getField (data : PassportData) (field : String) : Option String :=
  if field = "fullName" then data.fullName
  else if field = "dateOfBirth" then data.dateOfBirth
  else if field = "passportNumber" then data.passportNumber
  else if field = "nationality" then data.nationality
  else if field = "dateOfIssue" then data.dateOfIssue
  else if field = "dateOfExpiry" then data.dateOfExpiry
  else none

/-- Character class of `/^[\p{L} \-'.]+$/u`, on the ASCII fragment
(`\p{L}` restricted to ASCII letters; all contract data is ASCII). -/
def isNameChar (c : Char) : Bool :=
  c.isAlpha ∨ c = ' ' ∨ c = '-' ∨ c = '\'' ∨ c = '.'

/-- All `addValidation` events of `validatePassportData`, in call order. -/
def events (now : JsDate) (data : PassportData) : List (String × String) :=
  let pnEvents := passportNumberEvents data.passportNumber
  let dobR := validateDate "dateOfBirth" data.dateOfBirth
    (some 1900) (some (now.year - 1)) true false now
  let doiR := validateDate "dateOfIssue" data.dateOfIssue
    (some 2000) none true false now
  let doeR := validateDate "dateOfExpiry" data.dateOfExpiry
    (some now.year) none false true now
  let consistency :=
    (match doiR.1, doeR.1 with
     | some doi, some doe =>
       if doe.key < doi.key then
         [("dateOfIssue", "Cannot be after expiration date")] else []
     | _, _ => []) ++
    (match dobR.1, doiR.1 with
     | some dob, some doi =>
       if doi.key < dob.key then
         [("dateOfBirth", "Cannot be after issue date")] else []
     | _, _ => [])
  let natEvents :=
    if COUNTRY_CODES.contains (jsToUpper (data.nationality.getD "")) then []
    else [("nationality", "Invalid country code")]
  let confEvents :=
    (data.confidence_scores.getD []).filterMap fun p =>
      if badScore p.2 then
        some ("confidence_scores." ++ p.1, "Invalid confidence score")
      else none
  let reqEvents :=
    ["fullName", "dateOfBirth", "passportNumber",
     "nationality", "dateOfIssue", "dateOfExpiry"].filterMap fun f =>
      if ((getField data f).map jsTrim).getD "" = "" then
        some (f, "Required field missing")
      else none
  let nameEvents :=
    let fn := jsTrim (data.fullName.getD "")
    if fn = "" then []
    else
      (if ¬ fn.toList.any Char.isWhitespace then
        [("fullName", "Missing surname/given name separator")] else []) ++
      (if ¬ (fn.toList ≠ [] ∧ fn.toList.all isNameChar) then
        [("fullName", "Contains invalid characters")] else [])
  pnEvents ++ dobR.2 ++ doiR.2 ++ doeR.2 ++ consistency ++ natEvents ++
    confEvents ++ reqEvents ++ nameEvents

/-- `validatePassportData` of `client/src/lib/validation.ts`. -/
def validatePassportData (now : JsDate) (data : PassportData) :
    ValidationResult :=
  let evs := events now data
  { isValid := evs.map (fun e => e.1 ++ ": " ++ e.2) = []
    remarks := evs.map fun e => e.1 ++ ": " ++ e.2
    details := evs.foldl (fun ds e => addDetail ds e.1 e.2) [] }

end V1

namespace QS

/-!
The quality-score variant of `validatePassportData` (the
`{ isValid, remarks, qualityScore }` validator shipped in the repository
alongside the contribution guide).  Each rule violation is modelled as a
pair `(remark, weight)`; the final score is `100` minus the summed
weights, clamped to `[0, 100]` (`Math.max(0, Math.min(100, q))`).
-/

/-- The result type `ValidationResult = { isValid, remarks, qualityScore }`. -/
structure ValidationResult where
  isValid : Bool
  remarks : List String
  qualityScore : Int
deriving DecidableEq, Repr

/-- Keys of the object literal returned by this variant. -/
def resultKeys : List String := ["isValid", "remarks", "qualityScore"]

/-- JS string truthiness for an `Option String` value. -/
def truthyStr (v : Option String) : Bool := (v.getD "") ≠ ""

/-- `x.toFixed(1)` on an exact rational: round to one decimal, ties to
the larger value, rendered as `int.frac`. -/
def jsToFixed1 (q : ℚ) : String :=
  if q < 0 then
    let n := (Int.floor (-q * 10 + 1 / 2)).toNat
    "-" ++ toString (n / 10) ++ "." ++ toString (n % 10)
  else
    let n := (Int.floor (q * 10 + 1 / 2)).toNat
    toString (n / 10) ++ "." ++ toString (n % 10)

/-- Character class of the MRZ regexes `/^[A-Z0-9<]{44}$/`. -/
def isMrzChar (c : Char) : Bool :=
  ('A' ≤ c ∧ c ≤ 'Z') ∨ c.isDigit ∨ c = '<'

/-- `/^[A-Z0-9<]{44}$/.test(s)`. -/
def mrzLine44 (s : String) : Bool :=
  s.length = 44 ∧ s.toList.all isMrzChar

/-- Low-confidence rule: each field whose score is below the 0.6
threshold draws a remark and a 10-point penalty (`score < 0.6` is false
for a non-number score, as for `NaN`). -/
def confViolations (cs : Option (List (String × Option ℚ))) :
    List (String × Int) :=
  (cs.getD []).filterMap fun p =>
    match p.2 with
    | some q =>
      if q < 6 / 10 then
        some ("Low confidence (" ++ jsToFixed1 (q * 100) ++ "%) for " ++ p.1,
          10)
      else none
    | none => none

/-- The date rules of the `try` block.  An unparseable string gives an
Invalid Date whose comparisons are all false (`NaN` semantics), hence no
remark here (`new Date` never throws, so the catch branch with its
25-point penalty is unreachable). -/
def dateViolations (now : JsDate) (data : PassportData) :
    List (String × Int) :=
  (if truthyStr data.dateOfBirth then
    match parseJsDate data.dateOfBirth with
    | some d =>
      (if now.key < d.key then
        [("Date of birth is in the future", (15 : Int))] else []) ++
      (if d.year < 1900 then
        [("Date of birth is unrealistically old", 15)] else [])
    | none => []
  else []) ++
  (if truthyStr data.dateOfIssue then
    match parseJsDate data.dateOfIssue with
    | some d =>
      (if now.key < d.key then
        [("Date of issue is in the future", (15 : Int))] else []) ++
      (if d.year < 1900 then
        [("Date of issue is unrealistically old", 15)] else [])
    | none => []
  else []) ++
  (if truthyStr data.dateOfExpiry then
    match parseJsDate data.dateOfExpiry with
    | some d =>
      if d.key < now.key then [("Passport is expired", (10 : Int))] else []
    | none => []
  else []) ++
  (if truthyStr data.dateOfBirth ∧ truthyStr data.dateOfIssue then
    match parseJsDate data.dateOfBirth, parseJsDate data.dateOfIssue with
    | some dob, some doi =>
      if doi.key < dob.key then
        [("Issue date cannot be before date of birth", (20 : Int))] else []
    | _, _ => []
  else [])

/-- MRZ rule: `line1`/`line2` must both be supplied (non-empty), and each
must match `/^[A-Z0-9<]{44}$/`. -/
def mrzViolations (m : Option Mrz) : List (String × Int) :=
  match m with
  | none => []
  | some mz =>
    if (mz.line1.getD "") = "" ∨ (mz.line2.getD "") = "" then
      [("Incomplete MRZ data", 15)]
    else
      (if ¬ mrzLine44 (mz.line1.getD "") then
        [("Invalid MRZ line 1 format", (10 : Int))] else []) ++
      (if ¬ mrzLine44 (mz.line2.getD "") then
        [("Invalid MRZ line 2 format", 10)] else [])

/-- Shape regex `/^\d{4}-\d{2}-\d{2}$/` of the zod date fields. -/
def isoDateShape (s : String) : Bool :=
  match s.toList with
  | [y1, y2, y3, y4, d1, m1, m2, d2, a1, a2] =>
    y1.isDigit ∧ y2.isDigit ∧ y3.isDigit ∧ y4.isDigit ∧ d1 = '-' ∧
      m1.isDigit ∧ m2.isDigit ∧ d2 = '-' ∧ a1.isDigit ∧ a2.isDigit
  | _ => false

/-- Zod regex `/^[A-Z0-9]{7,9}$/` of the passport-number field. -/
def passportNumberShape (s : String) : Bool :=
  (7 ≤ s.length ∧ s.length ≤ 9) ∧
    s.toList.all fun c => ('A' ≤ c ∧ c ≤ 'Z') ∨ c.isDigit

/-- A `z.string().min(2, label)` field: `undefined` draws the zod
"Required" issue, a shorter string the custom label; either way 10 points. -/
def zodMin2 (field label : String) (v : Option String) :
    List (String × Int) :=
  match v with
  | none => [(field ++ ": Required", 10)]
  | some s => if s.length < 2 then [(field ++ ": " ++ label, 10)] else []

/-- A `z.string().regex(re, label)` field. -/
def zodRegex (field label : String) (test : String → Bool)
    (v : Option String) : List (String × Int) :=
  match v with
  | none => [(field ++ ": Required", 10)]
  | some s => if ¬ test s then [(field ++ ": " ++ label, 10)] else []

/-- The `passportSchema.parse` catch: one remark and 10 points per zod
issue, in schema key order. -/
def zodViolations (data : PassportData) : List (String × Int) :=
  zodMin2 "fullName" "Name must be at least 2 characters" data.fullName ++
  zodRegex "dateOfBirth" "Invalid date format (YYYY-MM-DD)" isoDateShape
    data.dateOfBirth ++
  zodRegex "passportNumber" "Invalid passport number format"
    passportNumberShape data.passportNumber ++
  zodMin2 "nationality" "Nationality must be at least 2 characters"
    data.nationality ++
  zodRegex "dateOfIssue" "Invalid date format (YYYY-MM-DD)" isoDateShape
    data.dateOfIssue ++
  zodRegex "dateOfExpiry" "Invalid date format (YYYY-MM-DD)" isoDateShape
    data.dateOfExpiry ++
  zodMin2 "placeOfBirth" "Place of birth must be at least 2 characters"
    data.placeOfBirth ++
  zodMin2 "issuingAuthority" "Issuing authority must be at least 2 characters"
    data.issuingAuthority

/-- All rule violations, in source order: confidence, dates, MRZ, schema. -/
def violations (now : JsDate) (data : PassportData) : List (String × Int) :=
  confViolations data.confidence_scores ++ dateViolations now data ++
    mrzViolations data.mrz ++ zodViolations data

/-- The quality-score `validatePassportData`: remarks in rule order,
`qualityScore = Math.max(0, Math.min(100, 100 - penalties))`,
`isValid = remarks.length === 0`. -/
def validatePassportData (now : JsDate) (data : PassportData) :
    ValidationResult :=
  let vs := violations now data
  { isValid := vs.map Prod.fst = []
    remarks := vs.map Prod.fst
    qualityScore := max 0 (min 100 (100 - (vs.map Prod.snd).sum)) }

end QS

/-!
## Extraction clients

The `try` block of each client awaits the inference service, checks the
response content for emptiness, and parses it as JSON; each of these steps
can fail, and every failure lands in the same `catch`.  The whole fallible
prefix is therefore modelled as an oracle outcome: either a `FailureMode`
(which failure occurred, with the message the thrown `Error` carries) or
the successfully parsed payload.
-/

/-- The normal failure modes of one inference call. -/
inductive FailureMode where
  | requestThrew (msg : String)
  | emptyResponse
  | parseFailed (msg : String)
deriving DecidableEq, Repr

namespace ServerExtract

/-!
`extractPassportData` of `api/openai.js`: the success path computes
`overall_confidence` from the parsed `confidence_scores`, the catch
returns a defaulted record.  (The local `extractionNotes` array the catch
pushes to is dead: the returned object carries no `extraction_notes`
member — the failure reason travels in `rawText` and
`visual_description`.)
-/

/-- Keys of the object literal returned by the server
`extractPassportData` (both branches). -/
def resultKeys : List String := ["extractedData", "rawText", "overall_confidence"]

/-- `error.message` of the `Error` reaching the catch. -/
def errMessage : FailureMode → String
  | .requestThrew msg => msg
  | .emptyResponse => "Empty response from OpenAI"
  | .parseFailed msg => msg

/-- The parsed JSON members the client itself reads
(`parsedData.confidence_scores || {}`); the remaining members are passed
through untouched inside `extractedData`. -/
structure ParsedData where
  confidence_scores : Option (List (String × ℚ))
deriving DecidableEq, Repr

/-- The defaulted `extractedData` object built in the catch. -/
structure DefaultData where
  fullName : String
  dateOfBirth : String
  passportNumber : String
  idNumber : String
  nationality : String
  dateOfIssue : String
  dateOfExpiry : String
  placeOfBirth : String
  issuingAuthority : String
  gender : String
  mrz : Mrz
  confidence_scores : List (String × ℚ)
  visual_description : String
deriving DecidableEq, Repr

/-- `extractedData` is the parsed JSON on success, the default object on
failure. -/
inductive ExtractedData where
  | parsed (p : ParsedData)
  | defaulted (d : DefaultData)
deriving DecidableEq, Repr

structure Result where
  extractedData : ExtractedData
  rawText : String
  overall_confidence : ℚ
deriving DecidableEq, Repr

/-- `Number(x.toFixed(2))` on an exact rational: round to two decimals,
ties to the larger value. -/
def round2 (q : ℚ) : ℚ := (Int.floor (q * 100 + 1 / 2) : ℚ) / 100

/-- The default record of the catch branch: every identity field `""`,
empty MRZ lines, empty confidence map, the error message as visual
description. -/
def defaultData (msg : String) : DefaultData :=
  { fullName := "", dateOfBirth := "", passportNumber := "", idNumber := ""
    nationality := "", dateOfIssue := "", dateOfExpiry := ""
    placeOfBirth := "", issuingAuthority := "", gender := ""
    mrz := { line1 := some "", line2 := some "" }
    confidence_scores := []
    visual_description := msg }

/-- `extractPassportData` of `api/openai.js`, as a function of the
outcome of the awaited inference-and-parse prefix (`content` is the raw
response text, kept as `rawText`). -/
def extractPassportData (outcome : Except FailureMode (String × ParsedData)) :
    Result :=
  match outcome with
  | .ok (content, parsedData) =>
    let confidenceValues := (parsedData.confidence_scores.getD []).map Prod.snd
    let overallConfidence : ℚ :=
      if confidenceValues.length > 0 then
        confidenceValues.foldl (fun a b => a + b) 0 / confidenceValues.length
      else 1 / 2
    { extractedData := .parsed parsedData
      rawText := content
      overall_confidence := round2 overallConfidence }
  | .error e =>
    let errorMessage := errMessage e
    { extractedData := .defaulted (defaultData errorMessage)
      rawText := errorMessage
      overall_confidence := 0 }

end ServerExtract

namespace ClientExtract

/-!
`extractPassportData` of `client/src/lib/openai.ts` (the fallback-object
variant at the cited lines): the success path returns `JSON.parse(content)`
unprocessed, the catch returns a structured failure object whose
`data.fullName` is `"Unknown"` and whose `extraction_notes` carries the
failure reason.
-/

/-- `error.message` of the `Error` reaching this client's catch. -/
def errMessage : FailureMode → String
  | .requestThrew msg => msg
  | .emptyResponse => "No content received from OpenAI"
  | .parseFailed msg => msg

/-- The `data` member of the catch's fallback object. -/
structure FailureData where
  fullName : String
  dateOfBirth : String
  passportNumber : String
  nationality : String
  dateOfIssue : String
  dateOfExpiry : String
  placeOfBirth : String
  issuingAuthority : String
  mrz : Mrz
deriving DecidableEq, Repr

/-- The catch's fallback object. -/
structure FailureResult where
  data : FailureData
  confidence_scores : List (String × ℚ)
  overall_confidence : ℚ
  extraction_notes : List String
deriving DecidableEq, Repr

/-- Result of the client `extractPassportData`: the parsed JSON on
success (typed `α`, passed through untouched), the fallback object on
failure. -/
inductive Result (α : Type) where
  | parsed (a : α)
  | failure (f : FailureResult)
deriving DecidableEq, Repr

/-- The catch's fallback object, as written in the source: `fullName` is
`"Unknown"`, every other identity field `""`, all nine per-field
confidence scores `0`, `overall_confidence` `0`, one extraction note. -/
def failureResult (noteMsg : String) : FailureResult :=
  { data :=
      { fullName := "Unknown", dateOfBirth := "", passportNumber := ""
        nationality := "", dateOfIssue := "", dateOfExpiry := ""
        placeOfBirth := "", issuingAuthority := ""
        mrz := { line1 := some "", line2 := some "" } }
    confidence_scores :=
      [("fullName", 0), ("dateOfBirth", 0), ("passportNumber", 0),
       ("nationality", 0), ("dateOfIssue", 0), ("dateOfExpiry", 0),
       ("placeOfBirth", 0), ("issuingAuthority", 0), ("mrz", 0)]
    overall_confidence := 0
    extraction_notes := [noteMsg] }

/-- `extractPassportData` of `client/src/lib/openai.ts`. -/
def extractPassportData (outcome : Except FailureMode α) : Result α :=
  match outcome with
  | .ok a => .parsed a
  | .error e =>
    .failure (failureResult ("Failed to process image: " ++ errMessage e))

end ClientExtract

/-!
## Batch orchestration

`api/batch-process-images.js` and `api/process-passport-pdf.js` both
split their work items into fixed-size chunks
(`for (i = 0; i < N; i += MAX_CONCURRENT) chunks.push(slice)`), run the
chunks sequentially, and inside each chunk run every item under an
individual try/catch: a success is kept (`results.push(...filter(Boolean))`),
a failure pushes one entry onto `errors` and yields `null`.  The per-item
pipeline (sharp resize, size check, inference call, thumbnail) is an
awaited external computation and is modelled as an oracle giving each
item's outcome.
-/

/-- `files.slice(i, i + c)` chunking of the dispatch loops. -/
def chunksOf (c : Nat) (l : List α) : List (List α) :=
  if h : c = 0 ∨ l.isEmpty then []
  else l.take c :: chunksOf c (l.drop c)
termination_by l.length
decreasing_by
  have hc : c ≠ 0 := fun e => h (Or.inl e)
  have hl : l ≠ [] := fun e => h (Or.inr (by simp [e]))
  simp only [List.length_drop]
  exact Nat.sub_lt (List.length_pos.mpr hl) (Nat.pos_of_ne_zero hc)

namespace BatchImages

/-- An uploaded multer file: original name plus (opaque) content. -/
structure File where
  originalname : String
deriving DecidableEq, Repr

/-- One entry of the `errors` list. -/
structure BatchError where
  filename : String
  index : Nat
  error : String
deriving DecidableEq, Repr

/-- One entry of the `results` list (the payload assembled from the
processed image, extraction result and thumbnail is opaque `β`). -/
structure BatchResult (β : Type) where
  filename : String
  index : Nat
  payload : β
deriving DecidableEq, Repr

/-- The success side of one item's try/catch: the result object kept by
`results.push(...chunkResults.filter(Boolean))`, or `none` when the item
threw. -/
def okEntry (processOne : Nat → File → Except String β) (fileIndex : Nat)
    (file : File) : Option (BatchResult β) :=
  match processOne fileIndex file with
  | .ok b => some ⟨file.originalname, fileIndex, b⟩
  | .error _ => none

/-- The failure side of one item's try/catch: the entry pushed onto
`errors`, or `none` when the item succeeded. -/
def errEntry (processOne : Nat → File → Except String β) (fileIndex : Nat)
    (file : File) : Option BatchError :=
  match processOne fileIndex file with
  | .ok _ => none
  | .error msg => some ⟨file.originalname, fileIndex, msg⟩

/-- One chunk's `Promise.all(chunk.map(...))` with the per-item
try/catch: chunk index `i`, `fileIndex = i * 5 + index`; successes in
chunk order, one error entry per failed item. -/
def processChunk (processOne : Nat → File → Except String β) (i : Nat)
    (chunk : List File) : List (BatchResult β) × List BatchError :=
  (chunk.enum.filterMap fun p => okEntry processOne (i * 5 + p.1) p.2,
   chunk.enum.filterMap fun p => errEntry processOne (i * 5 + p.1) p.2)

/-- The sequential chunk loop of the handler (`MAX_CONCURRENT = 5`):
results and errors accumulate across chunks. -/
def runBatch (processOne : Nat → File → Except String β)
    (files : List File) : List (BatchResult β) × List BatchError :=
  (chunksOf 5 files).enum.foldl
    (fun acc p =>
      let step := processChunk processOne p.1 p.2
      (acc.1 ++ step.1, acc.2 ++ step.2))
    ([], [])

/-- The JSON body of a successful batch response.  The `errors` member is
`errors.length > 0 ? errors : undefined`: an absent member is `none`. -/
structure Response (β : Type) where
  batchId : String
  totalFiles : Nat
  successfullyProcessed : Nat
  errorCount : Nat
  results : List (BatchResult β)
  errors : Option (List BatchError)
deriving DecidableEq, Repr

/-- The `res.status(200).json({...})` of the handler. -/
def handlerResponse (batchId : String)
    (processOne : Nat → File → Except String β) (files : List File) :
    Response β :=
  let run := runBatch processOne files
  { batchId := batchId
    totalFiles := files.length
    successfullyProcessed := run.1.length
    errorCount := run.2.length
    results := run.1
    errors := if run.2.length > 0 then some run.2 else none }

end BatchImages

namespace BatchPdf

/-- One entry of the `errors` list, keyed by page number. -/
structure PageError where
  pageNumber : Nat
  error : String
deriving DecidableEq, Repr

/-- One entry of the `results` list. -/
structure PageResult (β : Type) where
  pageNumber : Nat
  payload : β
deriving DecidableEq, Repr

/-- The chunked page numbers: pages `1..numPages` in chunks of
`MAX_CONCURRENT = 3` (`chunks.push(Array.from({length: min(3, numPages - i + 1)},
(_, index) => i + index))`). -/
def pageChunks (numPages : Nat) : List (List Nat) :=
  chunksOf 3 (List.range' 1 numPages)

/-- The success side of one page's try/catch. -/
def okPage (processPage : Nat → Except String β) (pageNumber : Nat) :
    Option (PageResult β) :=
  match processPage pageNumber with
  | .ok b => some ⟨pageNumber, b⟩
  | .error _ => none

/-- The failure side of one page's try/catch: the entry pushed onto
`errors`, keyed by the page number. -/
def errPage (processPage : Nat → Except String β) (pageNumber : Nat) :
    Option PageError :=
  match processPage pageNumber with
  | .ok _ => none
  | .error msg => some ⟨pageNumber, msg⟩

/-- The sequential chunk loop over pages, with the per-page try/catch. -/
def runBatch (processPage : Nat → Except String β) (numPages : Nat) :
    List (PageResult β) × List PageError :=
  (pageChunks numPages).foldl
    (fun acc chunk =>
      (acc.1 ++ chunk.filterMap (okPage processPage),
       acc.2 ++ chunk.filterMap (errPage processPage)))
    ([], [])

/-- The JSON body of a successful PDF response; `errors` is again
`errors.length > 0 ? errors : undefined`. -/
structure Response (β : Type) where
  batchId : String
  totalPages : Nat
  successfullyProcessed : Nat
  errorCount : Nat
  results : List (PageResult β)
  errors : Option (List PageError)
deriving DecidableEq, Repr

/-- The `res.status(200).json({...})` of the PDF handler. -/
def handlerResponse (batchId : String) (processPage : Nat → Except String β)
    (numPages : Nat) : Response β :=
  let run := runBatch processPage numPages
  { batchId := batchId
    totalPages := numPages
    successfullyProcessed := run.1.length
    errorCount := run.2.length
    results := run.1
    errors := if run.2.length > 0 then some run.2 else none }

end BatchPdf

namespace ImageCache

/-!
## Image normalizer (`safeProcessImage` of `server/routes.ts`)

The sharp pipeline (`sharp(buffer).rotate()`, then `.metadata()`, then
`.resize(800, 800, ...).jpeg(...).toBuffer()`) and the MD5 content hash
are awaited external operations, modelled as oracle functions; each call
into the codec is recorded in a trace so that "no resize attempted" and
"served from cache without re-invoking the codec" are statable.  The
module-level `imageCache` `Map` is the explicit state: an association
list in insertion order (`Map` iteration order), so the first entry is
the oldest key.
-/

/-- Raw byte buffer. -/
def Buffer := List Nat
deriving DecidableEq, Repr

/-- The sharp metadata members the function reads (`width`/`height` may
be `undefined`). -/
structure Metadata where
  width : Option Nat
  height : Option Nat
  format : String
deriving DecidableEq, Repr

/-- The image codec as an oracle: reading the metadata of the rotated
pipeline, and the resize-and-reencode step; either await can reject. -/
structure Codec where
  metadata : Buffer → Except String Metadata
  resizeJpegToBuffer : Buffer → Except String Buffer

/-- A cached value: `{ processed, metadata }`. -/
structure CacheEntry where
  processed : Buffer
  metadata : Metadata
deriving DecidableEq, Repr

/-- The `imageCache` map, in insertion order (head = oldest key). -/
def Cache := List (String × CacheEntry)
deriving DecidableEq, Repr

/-- `imageCache.get(k)` / `imageCache.has(k)` (first matching key). -/
def lookupKey (k : String) : List (String × CacheEntry) → Option CacheEntry
  | [] => none
  | e :: rest => if e.1 = k then some e.2 else lookupKey k rest

/-- `MAX_CACHE_SIZE = 50`. -/
def MAX_CACHE_SIZE : Nat := 50

/-- One codec invocation, for the call trace. -/
inductive CodecCall where
  | metadataCall
  | resizeCall
deriving DecidableEq, Repr

/-- JS truthiness of `metadata.width` (`undefined` and `0` are falsy). -/
def truthyDim : Option Nat → Bool
  | none => false
  | some n => n ≠ 0

/-- The dimension guard
`!metadata.width || !metadata.height || metadata.width > 5000 || metadata.height > 5000`. -/
def badDimensions (md : Metadata) : Bool :=
  ¬ truthyDim md.width ∨ ¬ truthyDim md.height ∨
    (md.width.getD 0) > 5000 ∨ (md.height.getD 0) > 5000

/-- `safeProcessImage(buffer)` over an explicit cache state, also
returning the trace of codec invocations made by this call.  Every
rejection is rethrown as `Image processing failed: <message>`. -/
def safeProcessImage (hashMd5 : Buffer → String) (codec : Codec)
    (buffer : Buffer) (cache : List (String × CacheEntry)) :
    Except String CacheEntry × List (String × CacheEntry) × List CodecCall :=
  let hash := hashMd5 buffer
  match lookupKey hash cache with
  | some v => (.ok v, cache, [])
  | none =>
    match codec.metadata buffer with
    | .error msg =>
      (.error ("Image processing failed: " ++ msg), cache, [.metadataCall])
    | .ok md =>
      if badDimensions md then
        (.error "Image processing failed: Invalid image dimensions", cache,
          [.metadataCall])
      else
        match codec.resizeJpegToBuffer buffer with
        | .error msg =>
          (.error ("Image processing failed: " ++ msg), cache,
            [.metadataCall, .resizeCall])
        | .ok processed =>
          let entry : CacheEntry := { processed := processed, metadata := md }
          let evicted :=
            if cache.length ≥ MAX_CACHE_SIZE then cache.drop 1 else cache
          (.ok entry, evicted ++ [(hash, entry)],
            [.metadataCall, .resizeCall])

/-- The cache state after a sequence of `safeProcessImage` calls starting
from the module-load state (`new Map()`). -/
def cacheAfter (hashMd5 : Buffer → String) (codec : Codec)
    (buffers : List Buffer) : List (String × CacheEntry) :=
  buffers.foldl (fun st b => (safeProcessImage hashMd5 codec b st).2.1) []

end ImageCache

/-- `filterMap` threading the running original index — the shape into
which the chunked dispatch loops flatten. -/
def idxFilterMap (g : Nat → α → Option β) : Nat → List α → List β
  | _, [] => []
  | k, x :: xs =>
    match g k x with
    | some b => b :: idxFilterMap g (k + 1) xs
    | none => idxFilterMap g (k + 1) xs

/-- The image handler's chunk loop as plain recursion over the chunk
list, carrying the chunk index `i`. -/
def BatchImages.runChunksFrom
    (processOne : Nat → BatchImages.File → Except String β) :
    Nat → List (List BatchImages.File) →
      List (BatchImages.BatchResult β) × List BatchImages.BatchError
  | _, [] => ([], [])
  | i, ch :: rest =>
    let head := BatchImages.processChunk processOne i ch
    let tail := BatchImages.runChunksFrom processOne (i + 1) rest
    (head.1 ++ tail.1, head.2 ++ tail.2)

deriving instance DecidableEq for Except

/-!
## Claim theorems
-/

/-- C1, counterexample: for the client `extractPassportData` of
`client/src/lib/openai.ts` (cited lines), a failing inference call yields
a fallback object whose `fullName` is `"Unknown"`, not `""` — so not
every identity field of the failure result is the empty string. -/
theorem C1_counterexample_fullName_unknown :
    ClientExtract.extractPassportData (α := Unit)
        (.error (.requestThrew "network error")) =
      .failure (ClientExtract.failureResult
        "Failed to process image: network error") ∧
    ¬ (ClientExtract.failureResult
        "Failed to process image: network error").data.fullName = "" := by
  exact ⟨rfl, by decide⟩

/-- C1, amended: on every normal failure mode (request throws, empty
response, JSON parse failure) both extraction clients return normally.
The server variant (`api/openai.js`) returns all identity fields `""`, an
empty confidence map, `overall_confidence` 0, and carries the failure
message in `rawText` and `visual_description` — its returned object has
no `extraction_notes` member (the local `extractionNotes` array is dead).
The client variant (`client/src/lib/openai.ts`) returns `fullName`
`"Unknown"`, every other identity field `""`, all nine per-field
confidence scores 0, `overall_confidence` 0, and a non-empty
`extraction_notes` carrying the failure classification. -/
theorem C1_extraction_failure_contract (e : FailureMode) (msg : String) :
    (ServerExtract.extractPassportData (.error e) =
      { extractedData :=
          .defaulted (ServerExtract.defaultData (ServerExtract.errMessage e))
        rawText := ServerExtract.errMessage e
        overall_confidence := 0 }) ∧
    ((ServerExtract.defaultData msg).fullName = "" ∧
      (ServerExtract.defaultData msg).dateOfBirth = "" ∧
      (ServerExtract.defaultData msg).passportNumber = "" ∧
      (ServerExtract.defaultData msg).nationality = "" ∧
      (ServerExtract.defaultData msg).dateOfIssue = "" ∧
      (ServerExtract.defaultData msg).dateOfExpiry = "" ∧
      (ServerExtract.defaultData msg).placeOfBirth = "" ∧
      (ServerExtract.defaultData msg).issuingAuthority = "" ∧
      (ServerExtract.defaultData msg).confidence_scores = [] ∧
      (ServerExtract.defaultData msg).visual_description = msg) ∧
    "extraction_notes" ∉ ServerExtract.resultKeys ∧
    (ClientExtract.extractPassportData (α := Unit) (.error e) =
      .failure (ClientExtract.failureResult
        ("Failed to process image: " ++ ClientExtract.errMessage e))) ∧
    ((ClientExtract.failureResult msg).data.fullName = "Unknown" ∧
      (ClientExtract.failureResult msg).data.dateOfBirth = "" ∧
      (ClientExtract.failureResult msg).data.passportNumber = "" ∧
      (ClientExtract.failureResult msg).data.nationality = "" ∧
      (ClientExtract.failureResult msg).data.dateOfIssue = "" ∧
      (ClientExtract.failureResult msg).data.dateOfExpiry = "" ∧
      (ClientExtract.failureResult msg).data.placeOfBirth = "" ∧
      (ClientExtract.failureResult msg).data.issuingAuthority = "" ∧
      (∀ p ∈ (ClientExtract.failureResult msg).confidence_scores, p.2 = 0) ∧
      (ClientExtract.failureResult msg).overall_confidence = 0 ∧
      (ClientExtract.failureResult msg).extraction_notes = [msg] ∧
      (ClientExtract.failureResult msg).extraction_notes ≠ []) := by
  refine ⟨rfl, ⟨rfl, rfl, rfl, rfl, rfl, rfl, rfl, rfl, rfl, rfl⟩, by decide,
    rfl, rfl, rfl, rfl, rfl, rfl, rfl, rfl, rfl, ?_, rfl, rfl,
    by simp [ClientExtract.failureResult]⟩
  intro p hp
  simp only [ClientExtract.failureResult, List.mem_cons, List.not_mem_nil,
    or_false] at hp
  rcases hp with h | h | h | h | h | h | h | h | h <;> simp [h]

/-- C1, witness: the amended contract at a concrete failure. -/
theorem C1_witness :
    (ClientExtract.failureResult "Failed to process image: boom").data.fullName
        = "Unknown" ∧
    (ServerExtract.defaultData "boom").fullName = "" := by
  exact ⟨(C1_extraction_failure_contract (.requestThrew "boom")
    "Failed to process image: boom").2.2.2.2.1,
    (C1_extraction_failure_contract (.requestThrew "boom") "boom").2.1.1⟩

/-- C2: on the success path of the server `extractPassportData`, a
non-empty parsed `confidence_scores` map gives
`overall_confidence = Number(mean.toFixed(2))` (the arithmetic mean of
the values rounded to two decimals), and an absent or empty map gives the
neutral fallback 0.5. -/
theorem C2_overall_confidence_mean (content : String)
    (p : ServerExtract.ParsedData) :
    (∀ scores : List (String × ℚ), p.confidence_scores = some scores →
      scores ≠ [] →
      (ServerExtract.extractPassportData (.ok (content, p))).overall_confidence
        = ServerExtract.round2 ((scores.map Prod.snd).sum / scores.length)) ∧
    (p.confidence_scores = none ∨ p.confidence_scores = some [] →
      (ServerExtract.extractPassportData (.ok (content, p))).overall_confidence
        = 1 / 2) := by
  constructor
  · intro scores hs hne
    simp only [ServerExtract.extractPassportData, hs, Option.getD_some]
    have hlen : (scores.map Prod.snd).length > 0 := by
      simpa using List.length_pos.mpr hne
    simp only [hlen, if_pos, gt_iff_lt]
    have hsum : (scores.map Prod.snd).foldl (fun a b => a + b) 0
        = (scores.map Prod.snd).sum := List.sum_eq_foldl.symm
    rw [hsum]
    simp [List.length_map]
  · intro h
    rcases h with h | h <;>
      simp [ServerExtract.extractPassportData, h, ServerExtract.round2] <;>
      norm_num

/-- C2, witness: `{a: 0.2, b: 0.8}` gives overall confidence 0.5. -/
theorem C2_witness :
    (ServerExtract.extractPassportData
        (.ok ("raw", ⟨some [("a", 1/5), ("b", 4/5)]⟩))).overall_confidence
      = ServerExtract.round2
          (((([("a", (1 : ℚ)/5), ("b", 4/5)]).map Prod.snd).sum) / 2) ∧
    (ServerExtract.extractPassportData
        (.ok ("raw", ⟨some [("a", 1/5), ("b", 4/5)]⟩))).overall_confidence
      = 1 / 2 := by
  have h := (C2_overall_confidence_mean "raw"
    ⟨some [("a", 1/5), ("b", 4/5)]⟩).1 [("a", 1/5), ("b", 4/5)] rfl (by simp)
  constructor
  · simpa using h
  · rw [show (ServerExtract.extractPassportData
        (.ok ("raw", ⟨some [("a", 1/5), ("b", 4/5)]⟩))).overall_confidence
      = ServerExtract.round2
          (((([("a", (1 : ℚ)/5), ("b", 4/5)]).map Prod.snd).sum) / 2) from
        by simpa using h]
    simp [ServerExtract.round2]
    norm_num

theorem chunksOf_nil (c : Nat) : chunksOf c ([] : List α) = [] := by
  rw [chunksOf]; simp

theorem chunksOf_cons (c : Nat) (hc : c ≠ 0) (l : List α) (hl : l ≠ []) :
    chunksOf c l = l.take c :: chunksOf c (l.drop c) := by
  rw [chunksOf]
  simp [hc, hl]

theorem chunksOf_length_aux (c : Nat) (hc : c ≠ 0) :
    ∀ (n : Nat) (l : List α), l.length ≤ n →
      (chunksOf c l).length = (l.length + (c - 1)) / c := by
  intro n
  induction n with
  | zero =>
    intro l hl
    have h0 : l = [] := List.eq_nil_of_length_eq_zero (Nat.le_zero.mp hl)
    subst h0
    simp [chunksOf_nil, Nat.div_eq_of_lt (show c - 1 < c by omega)]
  | succ n ih =>
    intro l hl
    by_cases h : l = []
    · subst h
      simp [chunksOf_nil, Nat.div_eq_of_lt (show c - 1 < c by omega)]
    · rw [chunksOf_cons c hc l h]
      have hpos : 0 < l.length := List.length_pos.mpr h
      have hdrop : (l.drop c).length ≤ n := by
        simp only [List.length_drop]; omega
      simp only [List.length_cons, ih (l.drop c) hdrop, List.length_drop]
      have hcpos : 0 < c := Nat.pos_of_ne_zero hc
      rcases le_or_lt c l.length with hcl | hcl
      · have heq : l.length + (c - 1) = (l.length - c + (c - 1)) + c := by
          omega
        rw [heq, Nat.add_div_right _ hcpos]
      · have h0 : l.length - c = 0 := by omega
        rw [h0]
        have h1 : (0 + (c - 1)) / c = 0 := Nat.div_eq_of_lt (by omega)
        have h2 : (l.length + (c - 1)) / c = 1 := by
          have heq : l.length + (c - 1) = (l.length - 1) + c := by omega
          rw [heq, Nat.add_div_right _ hcpos,
            Nat.div_eq_of_lt (show l.length - 1 < c by omega)]
        omega

theorem chunksOf_length (c : Nat) (hc : c ≠ 0) (l : List α) :
    (chunksOf c l).length = (l.length + (c - 1)) / c :=
  chunksOf_length_aux c hc l.length l le_rfl

theorem chunksOf_flatten_aux (c : Nat) (hc : c ≠ 0) :
    ∀ (n : Nat) (l : List α), l.length ≤ n → (chunksOf c l).flatten = l := by
  intro n
  induction n with
  | zero =>
    intro l hl
    have h0 : l = [] := List.eq_nil_of_length_eq_zero (Nat.le_zero.mp hl)
    subst h0
    simp [chunksOf_nil]
  | succ n ih =>
    intro l hl
    by_cases h : l = []
    · subst h; simp [chunksOf_nil]
    · rw [chunksOf_cons c hc l h]
      have hpos : 0 < l.length := List.length_pos.mpr h
      have hdrop : (l.drop c).length ≤ n := by
        simp only [List.length_drop]; omega
      simp only [List.flatten_cons, ih (l.drop c) hdrop,
        List.take_append_drop]

theorem chunksOf_flatten (c : Nat) (hc : c ≠ 0) (l : List α) :
    (chunksOf c l).flatten = l :=
  chunksOf_flatten_aux c hc l.length l le_rfl

theorem idxFilterMap_append (g : Nat → α → Option β) :
    ∀ (a b : List α) (k : Nat),
      idxFilterMap g k (a ++ b)
        = idxFilterMap g k a ++ idxFilterMap g (k + a.length) b := by
  intro a
  induction a with
  | nil => intro b k; simp [idxFilterMap]
  | cons x xs ih =>
    intro b k
    have harith : k + 1 + xs.length = k + (xs.length + 1) := by omega
    cases hg : g k x <;>
      simp [idxFilterMap, hg, ih b (k + 1), harith]

theorem enumFrom_filterMap (g : Nat → α → Option β) :
    ∀ (l : List α) (k b : Nat),
      (List.enumFrom k l).filterMap (fun q => g (b + q.1) q.2)
        = idxFilterMap g (b + k) l := by
  intro l
  induction l with
  | nil => intro k b; simp [idxFilterMap]
  | cons x xs ih =>
    intro k b
    have harith : b + (k + 1) = b + k + 1 := by omega
    cases hg : g (b + k) x <;>
      simp [List.enumFrom, idxFilterMap, hg, ih (k + 1) b, harith]

theorem enum_filterMap (g : Nat → α → Option β) (l : List α) :
    l.enum.filterMap (fun q => g q.1 q.2) = idxFilterMap g 0 l := by
  have h := enumFrom_filterMap g l 0 0
  simpa using h

theorem BatchImages.processChunk_eq
    (p : Nat → BatchImages.File → Except String β) (i : Nat)
    (chunk : List BatchImages.File) :
    BatchImages.processChunk p i chunk
      = (idxFilterMap (BatchImages.okEntry p) (i * 5) chunk,
         idxFilterMap (BatchImages.errEntry p) (i * 5) chunk) := by
  have h1 := enumFrom_filterMap (BatchImages.okEntry p) chunk 0 (i * 5)
  have h2 := enumFrom_filterMap (BatchImages.errEntry p) chunk 0 (i * 5)
  simp only [Nat.add_zero] at h1 h2
  simp only [BatchImages.processChunk]
  rw [show chunk.enum = List.enumFrom 0 chunk from rfl, h1, h2]

theorem BatchImages.runChunksFrom_acc
    (p : Nat → BatchImages.File → Except String β) :
    ∀ (chs : List (List BatchImages.File)) (i : Nat)
      (a : List (BatchImages.BatchResult β))
      (b : List BatchImages.BatchError),
      (List.enumFrom i chs).foldl
        (fun acc q =>
          let step := BatchImages.processChunk p q.1 q.2
          (acc.1 ++ step.1, acc.2 ++ step.2)) (a, b)
        = (a ++ (BatchImages.runChunksFrom p i chs).1,
           b ++ (BatchImages.runChunksFrom p i chs).2) := by
  intro chs
  induction chs with
  | nil => intro i a b; simp [BatchImages.runChunksFrom]
  | cons ch rest ih =>
    intro i a b
    simp only [List.enumFrom, List.foldl_cons, BatchImages.runChunksFrom]
    rw [ih (i + 1)]
    simp [List.append_assoc]

theorem BatchImages.runChunksFrom_chunksOf
    (p : Nat → BatchImages.File → Except String β) :
    ∀ (n : Nat) (l : List BatchImages.File), l.length ≤ n → ∀ (i : Nat),
      BatchImages.runChunksFrom p i (chunksOf 5 l)
        = (idxFilterMap (BatchImages.okEntry p) (i * 5) l,
           idxFilterMap (BatchImages.errEntry p) (i * 5) l) := by
  intro n
  induction n with
  | zero =>
    intro l hl i
    have h0 : l = [] := List.eq_nil_of_length_eq_zero (Nat.le_zero.mp hl)
    subst h0
    simp [chunksOf_nil, BatchImages.runChunksFrom, idxFilterMap]
  | succ n ih =>
    intro l hl i
    by_cases h : l = []
    · subst h
      simp [chunksOf_nil, BatchImages.runChunksFrom, idxFilterMap]
    · rw [chunksOf_cons 5 (by omega) l h]
      have hpos : 0 < l.length := List.length_pos.mpr h
      have hdrop : (l.drop 5).length ≤ n := by
        simp only [List.length_drop]; omega
      simp only [BatchImages.runChunksFrom, BatchImages.processChunk_eq,
        ih (l.drop 5) hdrop (i + 1)]
      have hsplit1 := idxFilterMap_append (BatchImages.okEntry p)
        (l.take 5) (l.drop 5) (i * 5)
      have hsplit2 := idxFilterMap_append (BatchImages.errEntry p)
        (l.take 5) (l.drop 5) (i * 5)
      rw [List.take_append_drop] at hsplit1 hsplit2
      rcases le_or_lt 5 l.length with hcl | hcl
      · have hlen : (l.take 5).length = 5 := by
          simp [List.length_take]; omega
        have harith : (i + 1) * 5 = i * 5 + (l.take 5).length := by
          rw [hlen]; ring
        rw [harith, ← hsplit1, ← hsplit2]
      · have hnil : l.drop 5 = [] := by
          apply List.eq_nil_of_length_eq_zero
          simp only [List.length_drop]; omega
        rw [hnil]
        simp only [idxFilterMap]
        have h1 : l.take 5 = l := List.take_of_length_le (by omega)
        simp [h1]

theorem BatchImages.runBatch_idxFilterMap
    (p : Nat → BatchImages.File → Except String β)
    (files : List BatchImages.File) :
    BatchImages.runBatch p files
      = (idxFilterMap (BatchImages.okEntry p) 0 files,
         idxFilterMap (BatchImages.errEntry p) 0 files) := by
  have h1 := BatchImages.runChunksFrom_acc p (chunksOf 5 files) 0 [] []
  have h2 := BatchImages.runChunksFrom_chunksOf p files.length files le_rfl 0
  simp only [Nat.zero_mul] at h2
  simp only [BatchImages.runBatch]
  rw [show (chunksOf 5 files).enum = List.enumFrom 0 (chunksOf 5 files)
    from rfl, h1, h2]
  simp

theorem idxFilterMap_ok_err_length
    (p : Nat → BatchImages.File → Except String β) :
    ∀ (l : List BatchImages.File) (k : Nat),
      (idxFilterMap (BatchImages.okEntry p) k l).length
        + (idxFilterMap (BatchImages.errEntry p) k l).length = l.length := by
  intro l
  induction l with
  | nil => intro k; simp [idxFilterMap]
  | cons x xs ih =>
    intro k
    cases hg : p k x <;>
      · simp [idxFilterMap, BatchImages.okEntry, BatchImages.errEntry, hg]
        have := ih (k + 1)
        omega

theorem BatchPdf.runBatch_foldl (p : Nat → Except String β) :
    ∀ (chs : List (List Nat)) (a : List (BatchPdf.PageResult β))
      (b : List BatchPdf.PageError),
      chs.foldl
        (fun acc chunk =>
          (acc.1 ++ chunk.filterMap (BatchPdf.okPage p),
           acc.2 ++ chunk.filterMap (BatchPdf.errPage p))) (a, b)
        = (a ++ chs.flatten.filterMap (BatchPdf.okPage p),
           b ++ chs.flatten.filterMap (BatchPdf.errPage p)) := by
  intro chs
  induction chs with
  | nil => intro a b; simp
  | cons ch rest ih =>
    intro a b
    simp only [List.foldl_cons, List.flatten_cons, List.filterMap_append,
      ih, List.append_assoc]

theorem BatchPdf.runBatch_filterMap (p : Nat → Except String β) (numPages : Nat) :
    BatchPdf.runBatch p numPages
      = ((List.range' 1 numPages).filterMap (BatchPdf.okPage p),
         (List.range' 1 numPages).filterMap (BatchPdf.errPage p)) := by
  simp only [BatchPdf.runBatch, BatchPdf.pageChunks,
    BatchPdf.runBatch_foldl p (chunksOf 3 (List.range' 1 numPages)) [] [],
    chunksOf_flatten 3 (by omega), List.nil_append]

theorem pdf_ok_err_length (p : Nat → Except String β) :
    ∀ (l : List Nat),
      (l.filterMap (BatchPdf.okPage p)).length
        + (l.filterMap (BatchPdf.errPage p)).length = l.length := by
  intro l
  induction l with
  | nil => simp
  | cons x xs ih =>
    cases hg : p x <;>
      · simp [List.filterMap_cons, BatchPdf.okPage, BatchPdf.errPage, hg]
        omega

/-- C3: for `N` items and chunk size `C` (5 for images, 3 for PDF pages)
the handlers dispatch exactly `⌈N / C⌉` chunks; the accumulated `results`
and `errors` are exactly the per-item successes and failures of the whole
input keyed by original index (respectively page number), so every
failing item contributes exactly one error entry without aborting the
rest, and `|results| + |errors| = N`. -/
theorem C3_batch_chunking (files : List BatchImages.File)
    (processOne : Nat → BatchImages.File → Except String β)
    (numPages : Nat) (processPage : Nat → Except String γ) :
    (chunksOf 5 files).length = (files.length + 4) / 5 ∧
    (BatchImages.runBatch processOne files).1.length
      + (BatchImages.runBatch processOne files).2.length = files.length ∧
    (BatchImages.runBatch processOne files).1
      = files.enum.filterMap (fun q => BatchImages.okEntry processOne q.1 q.2) ∧
    (BatchImages.runBatch processOne files).2
      = files.enum.filterMap (fun q => BatchImages.errEntry processOne q.1 q.2) ∧
    (BatchPdf.pageChunks numPages).length = (numPages + 2) / 3 ∧
    (BatchPdf.runBatch processPage numPages).1.length
      + (BatchPdf.runBatch processPage numPages).2.length = numPages ∧
    (BatchPdf.runBatch processPage numPages).1
      = (List.range' 1 numPages).filterMap (BatchPdf.okPage processPage) ∧
    (BatchPdf.runBatch processPage numPages).2
      = (List.range' 1 numPages).filterMap (BatchPdf.errPage processPage) := by
  refine ⟨?_, ?_, ?_, ?_, ?_, ?_, ?_, ?_⟩
  · simpa using chunksOf_length 5 (by omega) files
  · rw [BatchImages.runBatch_idxFilterMap]
    exact idxFilterMap_ok_err_length processOne files 0
  · rw [BatchImages.runBatch_idxFilterMap, enum_filterMap]
  · rw [BatchImages.runBatch_idxFilterMap, enum_filterMap]
  · simpa [BatchPdf.pageChunks] using
      chunksOf_length 3 (by omega) (List.range' 1 numPages)
  · rw [BatchPdf.runBatch_filterMap]
    simpa using pdf_ok_err_length processPage (List.range' 1 numPages)
  · rw [BatchPdf.runBatch_filterMap]
  · rw [BatchPdf.runBatch_filterMap]

/-- C7, counterexample: a batch in which every item succeeds yields a
response whose `errors` member is `undefined`
(`errors: errors.length > 0 ? errors : undefined`) — the errors list is
omitted, not included as an empty list; both handlers behave this way. -/
theorem C7_counterexample :
    (BatchImages.handlerResponse "batch"
        (fun _ _ => (Except.ok 0 : Except String Nat))
        [{ originalname := "a.jpg" }]).errors = none ∧
    (BatchPdf.handlerResponse "batch"
        (fun _ => (Except.ok 0 : Except String Nat)) 1).errors = none := by
  constructor
  · have h := BatchImages.runBatch_idxFilterMap
      (fun _ _ => (Except.ok 0 : Except String Nat))
      [{ originalname := "a.jpg" }]
    simp [BatchImages.handlerResponse, h, idxFilterMap, BatchImages.errEntry]
  · have h := BatchPdf.runBatch_filterMap
      (fun _ => (Except.ok 0 : Except String Nat)) 1
    simp [BatchPdf.handlerResponse, h, List.range',
      BatchPdf.errPage]

/-- C7, amended: every successful batch response carries the `results`
list (even when empty), but the `errors` member is present exactly when
at least one item failed; with no failures the key is `undefined`
(absent), in both the image and the PDF handler. -/
theorem C7_response_shape (batchId : String)
    (processOne : Nat → BatchImages.File → Except String β)
    (files : List BatchImages.File)
    (numPages : Nat) (processPage : Nat → Except String γ) :
    ((BatchImages.handlerResponse batchId processOne files).results
      = (BatchImages.runBatch processOne files).1) ∧
    ((BatchImages.handlerResponse batchId processOne files).errors = none
      ↔ (BatchImages.runBatch processOne files).2 = []) ∧
    (∀ es, (BatchImages.handlerResponse batchId processOne files).errors
        = some es →
      es = (BatchImages.runBatch processOne files).2 ∧ es ≠ []) ∧
    ((BatchPdf.handlerResponse batchId processPage numPages).results
      = (BatchPdf.runBatch processPage numPages).1) ∧
    ((BatchPdf.handlerResponse batchId processPage numPages).errors = none
      ↔ (BatchPdf.runBatch processPage numPages).2 = []) ∧
    (∀ es, (BatchPdf.handlerResponse batchId processPage numPages).errors
        = some es →
      es = (BatchPdf.runBatch processPage numPages).2 ∧ es ≠ []) := by
  refine ⟨rfl, ?_, ?_, rfl, ?_, ?_⟩
  · cases h : (BatchImages.runBatch processOne files).2 <;>
      simp [BatchImages.handlerResponse, h]
  · intro es hes
    cases h : (BatchImages.runBatch processOne files).2 with
    | nil => simp [BatchImages.handlerResponse, h] at hes
    | cons x xs =>
      simp [BatchImages.handlerResponse, h] at hes
      simp [← hes, h]
  · cases h : (BatchPdf.runBatch processPage numPages).2 <;>
      simp [BatchPdf.handlerResponse, h]
  · intro es hes
    cases h : (BatchPdf.runBatch processPage numPages).2 with
    | nil => simp [BatchPdf.handlerResponse, h] at hes
    | cons x xs =>
      simp [BatchPdf.handlerResponse, h] at hes
      simp [← hes, h]

/-- C7, witness: the amended shape at a concrete failing batch — the
`errors` member is present exactly because an item failed. -/
theorem C7_witness :
    (BatchImages.handlerResponse "b"
        (fun _ _ => (Except.error "e" : Except String Nat))
        [{ originalname := "a.jpg" }]).errors ≠ none := by
  have hrun := BatchImages.runBatch_idxFilterMap
    (fun _ _ => (Except.error "e" : Except String Nat))
    [{ originalname := "a.jpg" }]
  have h := (C7_response_shape "b"
    (fun _ _ => (Except.error "e" : Except String Nat))
    [{ originalname := "a.jpg" }] 0 (fun _ => (Except.ok 0 : Except String Nat))).2.1
  intro hnone
  have := h.mp hnone
  rw [hrun] at this
  simp [idxFilterMap, BatchImages.errEntry] at this

theorem ImageCache.lookupKey_append (k : String)
    (a b : List (String × ImageCache.CacheEntry)) :
    ImageCache.lookupKey k (a ++ b)
      = match ImageCache.lookupKey k a with
        | some v => some v
        | none => ImageCache.lookupKey k b := by
  induction a with
  | nil => simp [ImageCache.lookupKey]
  | cons e rest ih =>
    by_cases he : e.1 = k <;> simp [ImageCache.lookupKey, he, ih]

theorem ImageCache.lookupKey_none_drop (k : String)
    (l : List (String × ImageCache.CacheEntry))
    (h : ImageCache.lookupKey k l = none) :
    ImageCache.lookupKey k (l.drop 1) = none := by
  cases l with
  | nil => simp [ImageCache.lookupKey]
  | cons e rest =>
    by_cases he : e.1 = k
    · simp [ImageCache.lookupKey, he] at h
    · simpa [ImageCache.lookupKey, he] using h

theorem ImageCache.lookupKey_mem (k : String) (v : ImageCache.CacheEntry) :
    ∀ (l : List (String × ImageCache.CacheEntry)),
      ImageCache.lookupKey k l = some v → (k, v) ∈ l := by
  intro l
  induction l with
  | nil => intro h; simp [ImageCache.lookupKey] at h
  | cons e rest ih =>
    intro h
    obtain ⟨e1, e2⟩ := e
    by_cases he : e1 = k
    · subst he
      simp only [ImageCache.lookupKey, if_pos] at h
      obtain rfl : e2 = v := by simpa using h
      exact List.mem_cons_self _ _
    · simp only [ImageCache.lookupKey, if_neg he] at h
      exact List.mem_cons_of_mem _ (ih h)

/-- C4: when the decoded metadata lacks a width or a height, or either
dimension exceeds 5000 px, `safeProcessImage` (on a buffer not already
cached) rejects with the image-processing error, performs no resize or
re-encode (the codec trace holds only the metadata read), and leaves the
cache untouched. -/
theorem C4_dimension_ceiling (hashMd5 : ImageCache.Buffer → String)
    (codec : ImageCache.Codec) (buffer : ImageCache.Buffer)
    (st : List (String × ImageCache.CacheEntry)) (md : ImageCache.Metadata)
    (hfresh : ImageCache.lookupKey (hashMd5 buffer) st = none)
    (hmd : codec.metadata buffer = .ok md)
    (hbad : md.width = none ∨ md.height = none ∨
      5000 < md.width.getD 0 ∨ 5000 < md.height.getD 0) :
    ImageCache.safeProcessImage hashMd5 codec buffer st
      = (.error "Image processing failed: Invalid image dimensions", st,
         [.metadataCall]) := by
  have hb : ImageCache.badDimensions md = true := by
    rcases hbad with h | h | h | h <;>
      · simp [ImageCache.badDimensions, ImageCache.truthyDim, h]
        try omega
  simp [ImageCache.safeProcessImage, hfresh, hmd, hb]

/-- C4, witness: a 6000-px-wide image is rejected before any resize. -/
theorem C4_witness :
    ImageCache.safeProcessImage (fun _ => "h")
        { metadata := fun _ =>
            .ok { width := some 6000, height := some 100, format := "jpeg" }
          resizeJpegToBuffer := fun b => .ok b } [1] []
      = (.error "Image processing failed: Invalid image dimensions", [],
         [.metadataCall]) :=
  C4_dimension_ceiling (fun _ => "h") _ [1] []
    { width := some 6000, height := some 100, format := "jpeg" }
    rfl rfl (Or.inr (Or.inr (Or.inl (by norm_num))))

/-- C5: normalizing the same buffer twice is idempotent — if the first
call succeeds with value `v` and cache `st1`, the immediately following
call on the same buffer returns the bit-identical `v`, leaves the cache
unchanged, and makes no codec invocation at all (empty trace): it is
served from the content-hash cache. -/
theorem C5_cache_idempotent (hashMd5 : ImageCache.Buffer → String)
    (codec : ImageCache.Codec) (buffer : ImageCache.Buffer)
    (st st1 : List (String × ImageCache.CacheEntry))
    (v : ImageCache.CacheEntry) (tr1 : List ImageCache.CodecCall)
    (h : ImageCache.safeProcessImage hashMd5 codec buffer st
      = (.ok v, st1, tr1)) :
    ImageCache.safeProcessImage hashMd5 codec buffer st1
      = (.ok v, st1, []) := by
  cases hl : ImageCache.lookupKey (hashMd5 buffer) st with
  | some v0 =>
    simp only [ImageCache.safeProcessImage, hl] at h
    obtain ⟨hv, hst, -⟩ := by simpa using h
    subst hv hst
    simp [ImageCache.safeProcessImage, hl]
  | none =>
    cases hm : codec.metadata buffer with
    | error msg => simp [ImageCache.safeProcessImage, hl, hm] at h
    | ok md =>
      by_cases hb : ImageCache.badDimensions md
      · simp [ImageCache.safeProcessImage, hl, hm, hb] at h
      · cases hr : codec.resizeJpegToBuffer buffer with
        | error msg => simp [ImageCache.safeProcessImage, hl, hm, hb, hr] at h
        | ok processed =>
          simp only [ImageCache.safeProcessImage, hl, hm, hb, hr,
            Bool.false_eq_true, if_false] at h
          obtain ⟨hv, hst, -⟩ := by simpa using h
          have hfresh2 : ImageCache.lookupKey (hashMd5 buffer)
              (if ImageCache.MAX_CACHE_SIZE ≤ st.length then st.tail else st)
              = none := by
            by_cases hc : ImageCache.MAX_CACHE_SIZE ≤ st.length
            · have hd := ImageCache.lookupKey_none_drop (hashMd5 buffer) st hl
              simpa [hc, List.drop_one] using hd
            · simpa [hc] using hl
          have hhit : ImageCache.lookupKey (hashMd5 buffer) st1
              = some v := by
            rw [← hst, ImageCache.lookupKey_append, hfresh2]
            simp [ImageCache.lookupKey, hv]
          simp [ImageCache.safeProcessImage, hhit]

/-- C5, witness: a concrete successful normalization followed by a
cache-served second call. -/
theorem C5_witness :
    ImageCache.safeProcessImage (fun _ => "h")
        { metadata := fun _ =>
            .ok { width := some 100, height := some 200, format := "jpeg" }
          resizeJpegToBuffer := fun _ => .ok [9] } [1]
        [("h", { processed := [9],
                 metadata := { width := some 100, height := some 200,
                               format := "jpeg" } })]
      = (.ok { processed := [9],
               metadata := { width := some 100, height := some 200,
                             format := "jpeg" } },
         [("h", { processed := [9],
                  metadata := { width := some 100, height := some 200,
                                format := "jpeg" } })], []) :=
  C5_cache_idempotent (fun _ => "h") _ [1] [] _ _ _ rfl

theorem ImageCache.safeProcessImage_length_le
    (hashMd5 : ImageCache.Buffer → String) (codec : ImageCache.Codec)
    (buffer : ImageCache.Buffer)
    (st : List (String × ImageCache.CacheEntry))
    (hle : st.length ≤ 50) :
    ((ImageCache.safeProcessImage hashMd5 codec buffer st).2.1).length
      ≤ 50 := by
  cases hl : ImageCache.lookupKey (hashMd5 buffer) st with
  | some v0 => simpa [ImageCache.safeProcessImage, hl] using hle
  | none =>
    cases hm : codec.metadata buffer with
    | error msg => simpa [ImageCache.safeProcessImage, hl, hm] using hle
    | ok md =>
      by_cases hb : ImageCache.badDimensions md
      · simpa [ImageCache.safeProcessImage, hl, hm, hb] using hle
      · cases hr : codec.resizeJpegToBuffer buffer with
        | error msg =>
          simpa [ImageCache.safeProcessImage, hl, hm, hb, hr] using hle
        | ok processed =>
          simp only [ImageCache.safeProcessImage, hl, hm, hb,
            Bool.false_eq_true, if_false, hr]
          by_cases hc : st.length ≥ ImageCache.MAX_CACHE_SIZE
          · have h50 : st.length = 50 := by
              simp only [ge_iff_le, ImageCache.MAX_CACHE_SIZE] at hc
              omega
            rw [if_pos hc]
            simp only [List.length_append, List.length_drop,
              List.length_cons, List.length_nil]
            omega
          · rw [if_neg hc]
            simp only [ge_iff_le, ImageCache.MAX_CACHE_SIZE, not_le] at hc
            simp only [List.length_append, List.length_cons, List.length_nil]
            omega

/-- C6: the `imageCache` never exceeds `MAX_CACHE_SIZE = 50` entries
(from the module-load empty map, after any sequence of calls); a
successful insertion at capacity evicts exactly one entry, the oldest
(first-inserted) key, appending the new entry; below capacity nothing is
evicted; and entries are never mutated after insertion — any surviving
binding existed, with the same value, before the call. -/
theorem C6_cache_bound :
    (∀ (hashMd5 : ImageCache.Buffer → String) (codec : ImageCache.Codec)
      (buffers : List ImageCache.Buffer),
      (ImageCache.cacheAfter hashMd5 codec buffers).length ≤ 50) ∧
    (∀ (hashMd5 : ImageCache.Buffer → String) (codec : ImageCache.Codec)
      (buffer : ImageCache.Buffer)
      (st : List (String × ImageCache.CacheEntry))
      (v : ImageCache.CacheEntry)
      (st1 : List (String × ImageCache.CacheEntry))
      (tr : List ImageCache.CodecCall),
      ImageCache.lookupKey (hashMd5 buffer) st = none →
      ImageCache.safeProcessImage hashMd5 codec buffer st
        = (.ok v, st1, tr) →
      (st.length = 50 → st1 = st.drop 1 ++ [(hashMd5 buffer, v)]) ∧
      (st.length < 50 → st1 = st ++ [(hashMd5 buffer, v)])) ∧
    (∀ (hashMd5 : ImageCache.Buffer → String) (codec : ImageCache.Codec)
      (buffer : ImageCache.Buffer)
      (st : List (String × ImageCache.CacheEntry)) (k : String)
      (v' : ImageCache.CacheEntry),
      ImageCache.lookupKey k
          ((ImageCache.safeProcessImage hashMd5 codec buffer st).2.1)
        = some v' →
      k ≠ hashMd5 buffer → (k, v') ∈ st) := by
  refine ⟨?_, ?_, ?_⟩
  · intro hashMd5 codec buffers
    suffices hgen : ∀ (bufs : List ImageCache.Buffer)
        (st : List (String × ImageCache.CacheEntry)), st.length ≤ 50 →
        (bufs.foldl
          (fun acc b => (ImageCache.safeProcessImage hashMd5 codec b acc).2.1)
          st).length ≤ 50 by
      exact hgen buffers [] (by simp)
    intro bufs
    induction bufs with
    | nil => intro st h; simpa using h
    | cons b rest ih =>
      intro st h
      exact ih _ (ImageCache.safeProcessImage_length_le hashMd5 codec b st h)
  · intro hashMd5 codec buffer st v st1 tr hl h
    cases hm : codec.metadata buffer with
    | error msg => simp [ImageCache.safeProcessImage, hl, hm] at h
    | ok md =>
      by_cases hb : ImageCache.badDimensions md
      · simp [ImageCache.safeProcessImage, hl, hm, hb] at h
      · cases hr : codec.resizeJpegToBuffer buffer with
        | error msg => simp [ImageCache.safeProcessImage, hl, hm, hb, hr] at h
        | ok processed =>
          simp only [ImageCache.safeProcessImage, hl, hm, hb,
            Bool.false_eq_true, if_false, hr] at h
          obtain ⟨hv, hst, -⟩ := by simpa using h
          constructor
          · intro h50
            rw [← hst, ← hv]
            simp [ImageCache.MAX_CACHE_SIZE, h50, List.drop_one]
          · intro h50
            rw [← hst, ← hv]
            have : ¬ ImageCache.MAX_CACHE_SIZE ≤ st.length := by
              simp only [ImageCache.MAX_CACHE_SIZE]; omega
            simp [this]
  · intro hashMd5 codec buffer st k v' hlk hk
    cases hl : ImageCache.lookupKey (hashMd5 buffer) st with
    | some v0 =>
      rw [show (ImageCache.safeProcessImage hashMd5 codec buffer st).2.1 = st
        from by simp [ImageCache.safeProcessImage, hl]] at hlk
      exact ImageCache.lookupKey_mem k v' st hlk
    | none =>
      cases hm : codec.metadata buffer with
      | error msg =>
        rw [show (ImageCache.safeProcessImage hashMd5 codec buffer st).2.1 = st
          from by simp [ImageCache.safeProcessImage, hl, hm]] at hlk
        exact ImageCache.lookupKey_mem k v' st hlk
      | ok md =>
        by_cases hb : ImageCache.badDimensions md
        · rw [show (ImageCache.safeProcessImage hashMd5 codec buffer st).2.1
            = st from by simp [ImageCache.safeProcessImage, hl, hm, hb]] at hlk
          exact ImageCache.lookupKey_mem k v' st hlk
        · cases hr : codec.resizeJpegToBuffer buffer with
          | error msg =>
            rw [show (ImageCache.safeProcessImage hashMd5 codec
                buffer st).2.1 = st from by
              simp [ImageCache.safeProcessImage, hl, hm, hb, hr]] at hlk
            exact ImageCache.lookupKey_mem k v' st hlk
          | ok processed =>
            rw [show (ImageCache.safeProcessImage hashMd5 codec
                buffer st).2.1
              = (if ImageCache.MAX_CACHE_SIZE ≤ st.length then st.tail
                  else st)
                ++ [(hashMd5 buffer,
                    { processed := processed, metadata := md })] from by
              simp [ImageCache.safeProcessImage, hl, hm, hb, hr,
                List.drop_one]] at hlk
            rw [ImageCache.lookupKey_append] at hlk
            cases hpre : ImageCache.lookupKey k
                (if ImageCache.MAX_CACHE_SIZE ≤ st.length then st.tail
                  else st) with
            | some v0 =>
              rw [hpre] at hlk
              have hv0 : v0 = v' := by simpa using hlk
              have hmem := ImageCache.lookupKey_mem k v0 _ hpre
              rw [← hv0]
              by_cases hc : ImageCache.MAX_CACHE_SIZE ≤ st.length
              · rw [if_pos hc] at hmem
                exact List.mem_of_mem_tail hmem
              · rwa [if_neg hc] at hmem
            | none =>
              rw [hpre] at hlk
              simp only [ImageCache.lookupKey] at hlk
              rw [if_neg (fun e => hk e.symm)] at hlk
              simp [ImageCache.lookupKey] at hlk

/-- C6, witness: at a concrete 50-entry cache, a fresh successful
normalization evicts exactly the oldest (first) entry and appends the
new one; and a one-call history from the empty cache stays within the
bound. -/
theorem C6_witness :
    (ImageCache.cacheAfter (fun _ => "h")
        { metadata := fun _ =>
            .ok { width := some 1, height := some 1, format := "j" }
          resizeJpegToBuffer := fun _ => .ok [] } [[1]]).length ≤ 50 ∧
    (ImageCache.safeProcessImage (fun _ => "h")
        { metadata := fun _ =>
            .ok { width := some 1, height := some 1, format := "j" }
          resizeJpegToBuffer := fun _ => .ok [] } [1]
        (List.replicate 50
          ("k", ({ processed := [2], metadata :=
            { width := some 3, height := some 3, format := "j" } }
            : ImageCache.CacheEntry)))).2.1
      = (List.replicate 50
          ("k", ({ processed := [2], metadata :=
            { width := some 3, height := some 3, format := "j" } }
            : ImageCache.CacheEntry))).drop 1
        ++ [("h", { processed := [], metadata :=
            { width := some 1, height := some 1, format := "j" } })] := by
  constructor
  · exact C6_cache_bound.1 (fun _ => "h") _ [[1]]
  · exact (C6_cache_bound.2.1 (fun _ => "h")
      { metadata := fun _ =>
          .ok { width := some 1, height := some 1, format := "j" }
        resizeJpegToBuffer := fun _ => .ok [] } [1]
      (List.replicate 50
        ("k", ({ processed := [2], metadata :=
          { width := some 3, height := some 3, format := "j" } }
          : ImageCache.CacheEntry)))
      { processed := [], metadata :=
        { width := some 1, height := some 1, format := "j" } }
      ((List.replicate 50
        ("k", ({ processed := [2], metadata :=
          { width := some 3, height := some 3, format := "j" } }
          : ImageCache.CacheEntry))).drop 1
        ++ [("h", { processed := [], metadata :=
            { width := some 1, height := some 1, format := "j" } })])
      [.metadataCall, .resizeCall] (by decide) (by decide)).1 (by decide)

/-- C8: whenever both `dateOfBirth` and `dateOfIssue` parse as valid
dates and the birth date is strictly later than the issue date, the
`validatePassportData` of `client/src/lib/validation.ts` appends the
`dateOfBirth: Cannot be after issue date` remark and the result is
invalid; and `isValid` is true exactly when the remark list is empty. -/
theorem V1.remarks_events (now : JsDate) (data : PassportData) :
    (V1.validatePassportData now data).remarks
      = (V1.events now data).map
          (fun e : String × String => e.1 ++ ": " ++ e.2) := rfl

theorem V1.isValid_decide (now : JsDate) (data : PassportData) :
    (V1.validatePassportData now data).isValid
      = decide ((V1.events now data).map
          (fun e : String × String => e.1 ++ ": " ++ e.2) = []) := rfl

theorem C8_date_order_rule (now : JsDate) (data : PassportData) :
    (∀ b i, parseJsDate data.dateOfBirth = some b →
      parseJsDate data.dateOfIssue = some i → i.key < b.key →
      "dateOfBirth: Cannot be after issue date" ∈
        (V1.validatePassportData now data).remarks ∧
      (V1.validatePassportData now data).isValid = false) ∧
    ((V1.validatePassportData now data).isValid = true ↔
      (V1.validatePassportData now data).remarks = []) := by
  constructor
  · intro b i hb hi hlt
    have hev : ("dateOfBirth", "Cannot be after issue date")
        ∈ V1.events now data := by
      simp only [V1.events, V1.validateDate, hb, hi]
      simp [hlt]
    have hmem : "dateOfBirth: Cannot be after issue date"
        ∈ (V1.events now data).map
            (fun e : String × String => e.1 ++ ": " ++ e.2) := by
      have h := List.mem_map_of_mem
        (fun e : String × String => e.1 ++ ": " ++ e.2) hev
      simpa using h
    refine ⟨hmem, ?_⟩
    have hne : (V1.events now data).map
        (fun e : String × String => e.1 ++ ": " ++ e.2) ≠ [] :=
      List.ne_nil_of_mem hmem
    rw [V1.isValid_decide]
    exact decide_eq_false hne
  · rw [V1.isValid_decide, V1.remarks_events]
    simp

/-- C8, witness: the spec's example (`dateOfIssue` 2020-01-01,
`dateOfBirth` 2025-01-01) draws the date-order remark and invalidates
the record. -/
theorem C8_witness :
    "dateOfBirth: Cannot be after issue date" ∈
      (V1.validatePassportData ⟨2026, 10, 11⟩
        { fullName := some "JOHN SMITH"
          dateOfBirth := some "2025-01-01"
          passportNumber := some "K1234567"
          nationality := some "SGP"
          dateOfIssue := some "2020-01-01"
          dateOfExpiry := some "2030-01-01"
          placeOfBirth := some "Singapore"
          issuingAuthority := some "ICA"
          mrz := none
          confidence_scores := none }).remarks ∧
    (V1.validatePassportData ⟨2026, 10, 11⟩
        { fullName := some "JOHN SMITH"
          dateOfBirth := some "2025-01-01"
          passportNumber := some "K1234567"
          nationality := some "SGP"
          dateOfIssue := some "2020-01-01"
          dateOfExpiry := some "2030-01-01"
          placeOfBirth := some "Singapore"
          issuingAuthority := some "ICA"
          mrz := none
          confidence_scores := none }).isValid = false :=
  (C8_date_order_rule ⟨2026, 10, 11⟩ _).1
    ⟨2025, 1, 1⟩ ⟨2020, 1, 1⟩ (by decide) (by decide) (by decide)

theorem QS.remarks_violations (now : JsDate) (data : PassportData) :
    (QS.validatePassportData now data).remarks
      = (QS.violations now data).map Prod.fst := rfl

theorem QS.isValid_decide_violations (now : JsDate) (data : PassportData) :
    (QS.validatePassportData now data).isValid
      = decide ((QS.violations now data).map Prod.fst = []) := rfl

theorem QS.qualityScore_eq (now : JsDate) (data : PassportData) :
    (QS.validatePassportData now data).qualityScore
      = max 0 (min 100
          (100 - ((QS.violations now data).map Prod.snd).sum)) := rfl

theorem QS.mem_remark_of_mrz (now : JsDate) (data : PassportData)
    (r : String) (w : Int) (h : (r, w) ∈ QS.mrzViolations data.mrz) :
    r ∈ (QS.validatePassportData now data).remarks ∧
    (QS.validatePassportData now data).isValid = false := by
  have hv : (r, w) ∈ QS.violations now data := by
    simp only [QS.violations, List.mem_append]
    exact Or.inl (Or.inr h)
  have hm : r ∈ (QS.violations now data).map Prod.fst := by
    simpa using List.mem_map_of_mem Prod.fst hv
  refine ⟨by rw [QS.remarks_violations]; exact hm, ?_⟩
  rw [QS.isValid_decide_violations]
  exact decide_eq_false (List.ne_nil_of_mem hm)

/-- C9, counterexample: the cited `validatePassportData`
(`client/src/lib/validation.ts`) performs no MRZ checks at all — a
record carrying an `mrz` object with only `line1` supplied, and all
other fields valid, yields an empty remark list and `isValid = true`,
where the claim requires an MRZ remark and an invalid result. -/
theorem C9_counterexample :
    (V1.validatePassportData ⟨2026, 10, 11⟩
      { fullName := some "JOHN SMITH"
        dateOfBirth := some "1990-05-04"
        passportNumber := some "K1234567"
        nationality := some "SGP"
        dateOfIssue := some "2020-01-01"
        dateOfExpiry := some "2030-01-01"
        placeOfBirth := some "Singapore"
        issuingAuthority := some "ICA"
        mrz := some { line1 := some "P<SGPSMITH<<JOHN<<<<", line2 := none }
        confidence_scores := none }).remarks = [] ∧
    (V1.validatePassportData ⟨2026, 10, 11⟩
      { fullName := some "JOHN SMITH"
        dateOfBirth := some "1990-05-04"
        passportNumber := some "K1234567"
        nationality := some "SGP"
        dateOfIssue := some "2020-01-01"
        dateOfExpiry := some "2030-01-01"
        placeOfBirth := some "Singapore"
        issuingAuthority := some "ICA"
        mrz := some { line1 := some "P<SGPSMITH<<JOHN<<<<", line2 := none }
        confidence_scores := none }).isValid = true := by
  constructor <;> decide

/-- C9, amended: the `validatePassportData` at the cited lines is
independent of the `mrz` field (it implements no MRZ rule).  The MRZ
rule lives in the quality-score variant: a record whose `mrz` has a
missing/empty line draws `Incomplete MRZ data`; a supplied line failing
`/^[A-Z0-9<]{44}$/` draws the per-line format remark (so the
36-character TD3 variant is rejected, not accepted — only length 44
passes); and when both lines match, the MRZ rule contributes nothing:
the result coincides with that of the same record without `mrz`. -/
theorem C9_mrz_rule (now : JsDate) (data : PassportData) :
    (∀ m : Option Mrz,
      V1.validatePassportData now { data with mrz := m }
        = V1.validatePassportData now data) ∧
    (∀ mz : Mrz, data.mrz = some mz →
      ((mz.line1.getD "" = "" ∨ mz.line2.getD "" = "") →
        "Incomplete MRZ data" ∈ (QS.validatePassportData now data).remarks ∧
        (QS.validatePassportData now data).isValid = false) ∧
      (mz.line1.getD "" ≠ "" → mz.line2.getD "" ≠ "" →
        ¬ QS.mrzLine44 (mz.line1.getD "") →
        "Invalid MRZ line 1 format"
          ∈ (QS.validatePassportData now data).remarks ∧
        (QS.validatePassportData now data).isValid = false) ∧
      (mz.line1.getD "" ≠ "" → mz.line2.getD "" ≠ "" →
        ¬ QS.mrzLine44 (mz.line2.getD "") →
        "Invalid MRZ line 2 format"
          ∈ (QS.validatePassportData now data).remarks ∧
        (QS.validatePassportData now data).isValid = false) ∧
      (QS.mrzLine44 (mz.line1.getD "") → QS.mrzLine44 (mz.line2.getD "") →
        QS.validatePassportData now data
          = QS.validatePassportData now { data with mrz := none })) := by
  constructor
  · intro m
    rfl
  · intro mz hmz
    refine ⟨?_, ?_, ?_, ?_⟩
    · intro hp
      apply QS.mem_remark_of_mrz now data _ 15
      rw [hmz]
      simp [QS.mrzViolations, hp]
    · intro h1 h2 hb
      apply QS.mem_remark_of_mrz now data _ 10
      rw [hmz]
      simp [QS.mrzViolations, h1, h2, hb]
    · intro h1 h2 hb
      apply QS.mem_remark_of_mrz now data _ 10
      rw [hmz]
      simp [QS.mrzViolations, h1, h2, hb]
    · intro h1 h2
      have hne1 : mz.line1.getD "" ≠ "" := by
        intro e
        rw [e] at h1
        simp [QS.mrzLine44] at h1
      have hne2 : mz.line2.getD "" ≠ "" := by
        intro e
        rw [e] at h2
        simp [QS.mrzLine44] at h2
      have hm0 : QS.mrzViolations data.mrz = [] := by
        rw [hmz]
        simp [QS.mrzViolations, hne1, hne2, h1, h2]
      have hveq : QS.violations now data
          = QS.violations now { data with mrz := none } := by
        simp only [QS.violations, hm0]
        rfl
      simp only [QS.validatePassportData, hveq]

/-- C9, witness: the amended MRZ rule at concrete records — a partial
MRZ draws the incompleteness remark, 36-character lines draw the format
remark (36 is rejected), and two 44-character lines contribute no MRZ
remark at all. -/
theorem C9_witness :
    ("Incomplete MRZ data" ∈ (QS.validatePassportData ⟨2026, 10, 11⟩
      { fullName := some "JOHN SMITH"
        mrz := some { line1 := some "P<SGP", line2 := none } }).remarks) ∧
    ("Invalid MRZ line 1 format" ∈ (QS.validatePassportData ⟨2026, 10, 11⟩
      { fullName := some "JOHN SMITH"
        mrz := some
          { line1 := some (String.mk (List.replicate 36 '<'))
            line2 := some (String.mk (List.replicate 36 '<')) } }).remarks) ∧
    (QS.validatePassportData ⟨2026, 10, 11⟩
      { fullName := some "JOHN SMITH"
        mrz := some
          { line1 := some (String.mk (List.replicate 44 '<'))
            line2 := some (String.mk (List.replicate 44 '<')) } }
      = QS.validatePassportData ⟨2026, 10, 11⟩
        { fullName := some "JOHN SMITH", mrz := none }) := by
  refine ⟨?_, ?_, ?_⟩
  · exact (((C9_mrz_rule ⟨2026, 10, 11⟩ _).2
      { line1 := some "P<SGP", line2 := none } rfl).1 (by decide)).1
  · exact (((C9_mrz_rule ⟨2026, 10, 11⟩ _).2
      { line1 := some (String.mk (List.replicate 36 '<'))
        line2 := some (String.mk (List.replicate 36 '<')) } rfl).2.1
      (by decide) (by decide) (by decide)).1
  · exact ((C9_mrz_rule ⟨2026, 10, 11⟩ _).2
      { line1 := some (String.mk (List.replicate 44 '<'))
        line2 := some (String.mk (List.replicate 44 '<')) } rfl).2.2.2
      (by decide) (by decide)

theorem QS.confViolations_weight (cs : Option (List (String × Option ℚ))) :
    ∀ e ∈ QS.confViolations cs, e.2 = 10 := by
  intro e he
  simp only [QS.confViolations, List.mem_filterMap] at he
  obtain ⟨p, -, hpe⟩ := he
  repeat split at hpe
  all_goals simp at hpe
  rw [← hpe]

theorem QS.dateViolations_weight (now : JsDate) (data : PassportData) :
    ∀ e ∈ QS.dateViolations now data, e.2 = 15 ∨ e.2 = 10 ∨ e.2 = 20 := by
  intro e he
  simp only [QS.dateViolations, List.mem_append] at he
  rcases he with ((he | he) | he) | he <;>
    · repeat split at he
      all_goals simp at he
      all_goals
        first
          | (obtain rfl := he; simp)
          | (obtain rfl | rfl := he <;> simp)
          | (obtain ⟨-, rfl⟩ := he; simp)

theorem QS.mrzViolations_weight (m : Option Mrz) :
    ∀ e ∈ QS.mrzViolations m, e.2 = 15 ∨ e.2 = 10 := by
  intro e he
  unfold QS.mrzViolations at he
  split at he
  · simp at he
  · split at he
    · simp at he
      obtain rfl := he
      simp
    · simp only [List.mem_append] at he
      rcases he with he | he <;>
        · split at he
          · simp at he
            obtain rfl := he
            simp
          · simp at he

theorem QS.zodMin2_weight (field label : String) (v : Option String) :
    ∀ e ∈ QS.zodMin2 field label v, e.2 = 10 := by
  intro e he
  unfold QS.zodMin2 at he
  repeat split at he
  all_goals simp_all

theorem QS.zodRegex_weight (field label : String) (test : String → Bool)
    (v : Option String) : ∀ e ∈ QS.zodRegex field label test v, e.2 = 10 := by
  intro e he
  unfold QS.zodRegex at he
  repeat split at he
  all_goals simp_all

theorem QS.zodViolations_weight (data : PassportData) :
    ∀ e ∈ QS.zodViolations data, e.2 = 10 := by
  intro e he
  simp only [QS.zodViolations, List.mem_append] at he
  rcases he with ((((((he | he) | he) | he) | he) | he) | he) | he
  · exact QS.zodMin2_weight _ _ _ e he
  · exact QS.zodRegex_weight _ _ _ _ e he
  · exact QS.zodRegex_weight _ _ _ _ e he
  · exact QS.zodMin2_weight _ _ _ e he
  · exact QS.zodRegex_weight _ _ _ _ e he
  · exact QS.zodRegex_weight _ _ _ _ e he
  · exact QS.zodMin2_weight _ _ _ e he
  · exact QS.zodMin2_weight _ _ _ e he

/-- C10, counterexample: the `validatePassportData` at the cited lines
(`client/src/lib/validation.ts`) returns an object with exactly the keys
`isValid`, `remarks`, `details` — no `qualityScore` member exists in its
ValidationResult, contradicting the claim for that function. -/
theorem C10_counterexample : "qualityScore" ∉ V1.resultKeys := by decide

/-- C10, amended: the quality-score variant of `validatePassportData`
(the only shipped variant whose ValidationResult carries `qualityScore`)
computes `qualityScore = Math.max(0, Math.min(100, 100 - penalties))`
where each violated rule contributes a fixed weight between 10 and 25
points (observed weights 10, 15, 20; the 25-point catch branch is
unreachable because `new Date` never throws); the score starts at 100 (no
violations ⇒ 100) and is clamped to [0, 100].  The variant at the cited
lines returns `{ isValid, remarks, details }` with no quality score. -/
theorem C10_quality_score (now : JsDate) (data : PassportData) :
    (QS.validatePassportData now data).qualityScore
      = max 0 (min 100
          (100 - ((QS.violations now data).map Prod.snd).sum)) ∧
    (∀ w ∈ (QS.violations now data).map Prod.snd, 10 ≤ w ∧ w ≤ 25) ∧
    0 ≤ (QS.validatePassportData now data).qualityScore ∧
    (QS.validatePassportData now data).qualityScore ≤ 100 ∧
    (QS.violations now data = [] →
      (QS.validatePassportData now data).qualityScore = 100) ∧
    "qualityScore" ∈ QS.resultKeys ∧ "qualityScore" ∉ V1.resultKeys := by
  refine ⟨QS.qualityScore_eq now data, ?_, ?_, ?_, ?_, by decide, by decide⟩
  · intro w hw
    simp only [List.mem_map] at hw
    obtain ⟨e, he, rfl⟩ := hw
    simp only [QS.violations, List.mem_append] at he
    rcases he with ((he | he) | he) | he
    · have := QS.confViolations_weight data.confidence_scores e he
      omega
    · have := QS.dateViolations_weight now data e he
      omega
    · have := QS.mrzViolations_weight data.mrz e he
      omega
    · have := QS.zodViolations_weight data e he
      omega
  · rw [QS.qualityScore_eq]
    exact le_max_left 0 _
  · rw [QS.qualityScore_eq]
    exact max_le (by norm_num) (min_le_left _ _)
  · intro hempty
    rw [QS.qualityScore_eq, hempty]
    norm_num

/-- C10, witness: the amended statement at a fully valid record — no
violations, so the quality score starts (and stays) at 100 and lies in
[0, 100]. -/
theorem C10_witness :
    (QS.validatePassportData ⟨2026, 10, 11⟩
      { fullName := some "JOHN SMITH"
        dateOfBirth := some "1990-05-04"
        passportNumber := some "K1234567"
        nationality := some "SGP"
        dateOfIssue := some "2020-01-01"
        dateOfExpiry := some "2030-01-01"
        placeOfBirth := some "Singapore"
        issuingAuthority := some "ICA"
        mrz := none
        confidence_scores := none }).qualityScore = 100 ∧
    0 ≤ (QS.validatePassportData ⟨2026, 10, 11⟩
      { fullName := some "JOHN SMITH"
        dateOfBirth := some "1990-05-04"
        passportNumber := some "K1234567"
        nationality := some "SGP"
        dateOfIssue := some "2020-01-01"
        dateOfExpiry := some "2030-01-01"
        placeOfBirth := some "Singapore"
        issuingAuthority := some "ICA"
        mrz := none
        confidence_scores := none }).qualityScore := by
  constructor
  · exact (C10_quality_score ⟨2026, 10, 11⟩ _).2.2.2.2.1 (by decide)
  · exact (C10_quality_score ⟨2026, 10, 11⟩ _).2.2.1
